import Mathlib

/-!
Shallow embedding of `src/rp_handler.py`: a serverless job handler that
validates a job input, probes a local HTTP backend, uploads input images,
queues a workflow, polls for completion and resolves the produced output
file.  External collaborators (the `requests` / `urllib` HTTP calls, the
filesystem, `json.loads`, `base64.b64decode`, `rp_upload.upload_image`)
are modelled as oracles collected in an `Env` record; every function of
the source is translated into an executable Lean definition over those
oracles, instrumented with a trace of the external calls it performs.
-/

/-- Python/JSON values as they flow through the handler.  `null` stands for
the Python `None` (which is also what `json.loads` returns for JSON null). -/
inductive JVal where
  | null
  | bool (b : Bool)
  | num (n : Int)
  | str (s : String)
  | arr (xs : List JVal)
  | obj (fields : List (String × JVal))

/-- The Python faults the source can raise and never catches at the point of
raising: `TypeError`, `AttributeError`, `KeyError`, `binascii.Error`. -/
inductive PyFault where
  | typeError
  | attributeError
  | keyError (k : String)
  | binasciiError
deriving DecidableEq

/-- One image or video entry of a node output in the history record:
`{filename, subfolder, fullpath(optional)}`. -/
structure OutEntry where
  filename : String
  subfolder : String
  fullpath : Option String

/-- A node output: it may carry an `images` list and/or a `gifs` list
(`none` models an absent key). -/
structure NodeOutput where
  images : Option (List OutEntry)
  gifs : Option (List OutEntry)

/-- The `outputs` mapping of a history record: node id to node output,
in mapping-iteration (insertion) order. -/
abbrev Outputs := List (String × NodeOutput)

/-- One history record: its `outputs` field (`none` models an absent key). -/
structure HRec where
  outputs : Option Outputs

/-- The JSON returned by `GET /history/{prompt_id}`: a mapping from prompt id
to history record. -/
abbrev History := List (String × HRec)

/-- An external call performed by the handler, recorded in a trace. -/
inductive Call where
  | healthGet (i : Nat)
  | uploadImage (name : String)
  | queuePost
  | historyGet (k : Nat)
  | fsExists (p : String)
  | listdir (p : String)
  | getsize (p : String)
  | s3Upload (p : String)
deriving DecidableEq

/-- Values appearing in the dictionaries the handler returns. -/
inductive RVal where
  | s (v : String)
  | b (v : Bool)
  | l (v : List String)
deriving DecidableEq

/-- A returned Python dictionary, keys in insertion order. -/
abbrev RDict := List (String × RVal)

/-- The keys of a returned dictionary, in order. -/
def keysOf (d : RDict) : List String := d.map (fun p => p.1)

/-- The outcome dictionary built by `upload_images`. -/
structure UOutcome where
  status : String
  message : String
  details : List String
deriving DecidableEq

/-- The oracle environment: every external collaborator of the handler,
plus the environment-sourced configuration constants. -/
structure Env where
  /-- `json.loads` on a string input; `none` is a `json.JSONDecodeError`. -/
  jsonParse : String → Option JVal
  /-- The i-th `requests.get` of `check_server`: status code, or a
  `requests.RequestException` (`Except.error`). -/
  healthGet : Nat → Except Unit Nat
  /-- `base64.b64decode`; `none` is a `binascii.Error`. -/
  b64decode : String → Option (List Nat)
  /-- `requests.post` to `/upload/image` with a name and decoded blob:
  yields the response status code and text. -/
  uploadPost : String → List Nat → Nat × String
  /-- `queue_workflow` followed by the `["prompt_id"]` lookup: `Except.error m`
  is a raised exception with `str(e) = m`; `.ok none` means the response JSON
  lacks the `prompt_id` key (so the lookup raises `KeyError`). -/
  queuePost : JVal → Except String (Option String)
  /-- `get_history` on the k-th poll iteration: the parsed history JSON, or a
  raised exception with the given `str(e)`. -/
  historyGet : Nat → Except String History
  /-- `os.path.exists` on a string path. -/
  fsExists : String → Bool
  /-- `os.listdir`. -/
  listdirAt : String → List String
  /-- `os.path.getsize`. -/
  getsizeAt : String → Nat
  /-- `rp_upload.upload_image job_id path`: the S3 URL. -/
  s3upload : String → String → String
  /-- `COMFY_OUTPUT_PATH` (default `/comfyui/output`). -/
  outputPath : String
  /-- `COMFY_POLLING_MAX_RETRIES` (default 120). -/
  pollMaxRetries : Nat
  /-- `REFRESH_WORKER` (default false). -/
  refreshWorker : Bool

/-- `COMFY_API_AVAILABLE_MAX_RETRIES` of the source (a fixed constant). -/
def COMFY_API_AVAILABLE_MAX_RETRIES : Nat := 500

/-- `dict.get k` on a Python dictionary, with the `None` default: an absent
key and a stored `None` are both `JVal.null`. -/
def pyGet (fields : List (String × JVal)) (k : String) : JVal :=
  match fields.lookup k with
  | some v => v
  | none => JVal.null

/-- The validated input built by `validate_input`:
`{"workflow": workflow, "images": images}` (images may be `None`). -/
structure Validated where
  workflow : JVal
  images : JVal

/-- Substring test on character lists (the Python `in` on strings). -/
def pySubstr (needle : List Char) : List Char → Bool
  | [] => needle.isEmpty
  | c :: t => needle.isPrefixOf (c :: t) || pySubstr needle t

/-- Python membership `needle in v` for a string needle: key membership in a
dict, substring test in a string, element equality in a list; a `TypeError`
on values that support no membership test (numbers, booleans, `None`). -/
def pyContains (needle : String) (v : JVal) : Except PyFault Bool :=
  match v with
  | .obj fields => .ok (fields.any (fun p => p.1 == needle))
  | .str s => .ok (pySubstr needle.toList s.toList)
  | .arr xs => .ok (xs.any (fun w => match w with | .str t => t == needle | _ => false))
  | _ => .error .typeError

/-- The generator check of `validate_input`:
`all("name" in image and "image" in image for image in images)`, stopping at
the first false element and propagating any fault of the membership test. -/
def imagesWellFormed : List JVal → Except PyFault Bool
  | [] => .ok true
  | v :: rest =>
    match pyContains "name" v with
    | .error f => .error f
    | .ok false => .ok false
    | .ok true =>
      match pyContains "image" v with
      | .error f => .error f
      | .ok false => .ok false
      | .ok true => imagesWellFormed rest

/-- The body of `validate_input` after the string-parsing step: the parsed
value must be a dictionary, otherwise the `.get` attribute access raises
`AttributeError`. -/
def validateParsed (ji : JVal) : Except PyFault (Option Validated × Option String) :=
  match ji with
  | .obj fields =>
    match pyGet fields "workflow" with
    | .null => .ok (none, some "Missing 'workflow' parameter")
    | wf =>
      match pyGet fields "images" with
      | .null => .ok (some ⟨wf, .null⟩, none)
      | .arr xs =>
        match imagesWellFormed xs with
        | .error f => .error f
        | .ok true => .ok (some ⟨wf, .arr xs⟩, none)
        | .ok false => .ok (none, some "'images' must be a list of objects with 'name' and 'image' keys")
      | _ => .ok (none, some "'images' must be a list of objects with 'name' and 'image' keys")

  | _ => .error .attributeError

/-- `validate_input job_input`: returns `(validated_data, error_message)`. -/
def validate_input (env : Env) (jobInput : JVal) : Except PyFault (Option Validated × Option String) :=
  match jobInput with
  | .null => .ok (none, some "Please provide input")
  | .str s =>
    match env.jsonParse s with
    | none => .ok (none, some "Invalid JSON format in input")
    | some parsed => validateParsed parsed
  | other => validateParsed other

/-- The loop of `check_server`: remaining retries, next attempt index; yields
the returned boolean and the trace of GET attempts.  A non-200 response and a
`RequestException` both fall through to the next attempt. -/
def checkAux (env : Env) : Nat → Nat → Bool × List Call
  | 0, _ => (false, [])
  | Nat.succ n, i =>
    match env.healthGet i with
    | .ok code =>
      if code = 200 then (true, [.healthGet i])
      else
        let r := checkAux env n (i + 1)
        (r.1, .healthGet i :: r.2)
    | .error _ =>
      let r := checkAux env n (i + 1)
      (r.1, .healthGet i :: r.2)

/-- `check_server url retries delay`: the url and delay do not affect the
result and are dropped from the embedding. -/
def check_server (env : Env) (retries : Nat) : Bool × List Call :=
  checkAux env retries 0

/-- Python truthiness of a value (`if not images:`). -/
def pyFalsy : JVal → Bool
  | .null => true
  | .bool b => !b
  | .num n => n == 0
  | .str s => s == ""
  | .arr xs => xs.isEmpty
  | .obj fs => fs.isEmpty

/-- Python `str(v)` as used in the f-strings and the multipart form of
`upload_images`; the container cases are abbreviated (the claims never pass
a container as an image name). -/
def pyToStr : JVal → String
  | .str s => s
  | .num n => toString n
  | .bool true => "True"
  | .bool false => "False"
  | .null => "None"
  | .arr _ => "<list>"
  | .obj _ => "<dict>"

/-- Python subscription `v[k]` with a string key: a `KeyError` on a missing
dict key, a `TypeError` on non-dict values. -/
def pyIndexStr (v : JVal) (k : String) : Except PyFault JVal :=
  match v with
  | .obj fields =>
    match fields.lookup k with
    | some w => .ok w
    | none => .error (.keyError k)
  | _ => .error .typeError

/-- One iteration body of the `upload_images` loop: extract `image["name"]`
and `image["image"]`, decode the base64 payload (an invalid payload raises
`binascii.Error`, a non-string one a `TypeError` from `b64decode`), then POST
the multipart form; yields the name used and the response status and text. -/
def processImage (env : Env) (img : JVal) : Except PyFault (String × Nat × String) :=
  match pyIndexStr img "name" with
  | .error f => .error f
  | .ok nameV =>
    match pyIndexStr img "image" with
    | .error f => .error f
    | .ok dataV =>
      match dataV with
      | .str s =>
        match env.b64decode s with
        | none => .error .binasciiError
        | some blob =>
          let n := pyToStr nameV
          let (code, text) := env.uploadPost n blob
          .ok (n, code, text)
      | _ => .error .typeError

/-- The `for image in images` loop of `upload_images`, carrying the
`responses` and `upload_errors` accumulators and the call trace. -/
def uploadLoop (env : Env) : List JVal → List String → List String → List Call →
    Except PyFault UOutcome × List Call
  | [], responses, uploadErrors, tr =>
    if uploadErrors = [] then
      (.ok ⟨"success", "All images uploaded successfully", responses⟩, tr)
    else
      (.ok ⟨"error", "Some images failed to upload", uploadErrors⟩, tr)
  | img :: rest, responses, uploadErrors, tr =>
    match processImage env img with
    | .error f => (.error f, tr)
    | .ok (n, code, text) =>
      let tr := tr ++ [.uploadImage n]
      if code = 200 then
        uploadLoop env rest (responses ++ ["Successfully uploaded " ++ n]) uploadErrors tr
      else
        uploadLoop env rest responses (uploadErrors ++ ["Error uploading " ++ n ++ ": " ++ text]) tr

/-- `upload_images images`.  The handler only ever passes `None` or a list
(`validate_input` guarantees it); a truthy non-list value, which Python would
try to iterate, is modelled as a `TypeError`. -/
def upload_images (env : Env) (images : JVal) : Except PyFault UOutcome × List Call :=
  if pyFalsy images then
    (.ok ⟨"success", "No images to upload", []⟩, [])
  else
    match images with
    | .arr xs => uploadLoop env xs [] [] []
    | _ => (.error .typeError, [])

/-- The readiness test of the polling loop:
`prompt_id in history and history[prompt_id].get("outputs")` (the outputs
mapping must be present and non-empty to be truthy). -/
def histReady (h : History) (pid : String) : Bool :=
  match h.lookup pid with
  | none => false
  | some r =>
    match r.outputs with
    | none => false
    | some outs => !outs.isEmpty

/-- The result of the polling loop of `handler`. -/
inductive PollRes where
  | done (h : History)
  | timeout
  | fault (msg : String)

/-- The `while retries < COMFY_POLLING_MAX_RETRIES` loop: remaining retries
and the index of the next fetch; yields the loop result and the trace of
history fetches. -/
def pollAux (env : Env) (pid : String) : Nat → Nat → PollRes × List Call
  | 0, _ => (.timeout, [])
  | Nat.succ n, k =>
    match env.historyGet k with
    | .error m => (.fault m, [.historyGet k])
    | .ok h =>
      if histReady h pid then (.done h, [.historyGet k])
      else
        let r := pollAux env pid n (k + 1)
        (r.1, .historyGet k :: r.2)

/-- The completion poller: the polling loop of `handler`, run with the
configured retry budget from fetch index 0. -/
def poll_loop (env : Env) (pid : String) : PollRes × List Call :=
  pollAux env pid env.pollMaxRetries 0

/-- Whether a string starts with a slash (kernel-reducible form of the
`b.startswith("/")` test of `os.path.join`). -/
def startsWithSlash (b : String) : Bool :=
  match b.toList with
  | [] => false
  | c :: _ => c = '/'

/-- Whether a string ends with a slash. -/
def endsWithSlash (a : String) : Bool :=
  match a.toList.getLast? with
  | some c => c = '/'
  | none => false

/-- `os.path.join a b` for POSIX paths as the source uses it. -/
def pathJoin (a b : String) : String :=
  if startsWithSlash b then b
  else if a = "" ∨ endsWithSlash a then a ++ b
  else a ++ "/" ++ b

/-- The candidate artifact held by the `output_file` / `full_path` pair of
`process_output_files`. -/
structure Cand where
  file : String
  full : Option String
deriving DecidableEq

/-- The candidate an entry sets:
`output_file = os.path.join(image["subfolder"], image["filename"])`,
`full_path = image.get("fullpath")`. -/
def entryCand (e : OutEntry) : Cand :=
  ⟨pathJoin e.subfolder e.filename, e.fullpath⟩

/-- Scan of one node output: every entry under the `images` key, then every
entry under the `gifs` key, overwrites the candidate. -/
def scanNode (acc : Option Cand) (no : NodeOutput) : Option Cand :=
  let acc1 :=
    match no.images with
    | none => acc
    | some l => l.foldl (fun _ e => some (entryCand e)) acc
  match no.gifs with
  | none => acc1
  | some l => l.foldl (fun _ e => some (entryCand e)) acc1

/-- The full scan of `process_output_files` over the outputs mapping. -/
def scanOutputs (outs : Outputs) : Option Cand :=
  outs.foldl (fun acc p => scanNode acc p.2) none

/-- All image and gif entries of the outputs mapping, in the order the scan
visits them (mapping-iteration order, images before gifs within a node). -/
def entryList (outs : Outputs) : List OutEntry :=
  outs.flatMap (fun p => (p.2.images.getD []) ++ (p.2.gifs.getD []))

/-- `os.path.dirname` for POSIX paths. -/
def posixDirname (p : String) : String :=
  let cs := p.toList
  let tailLen := (cs.reverse.takeWhile (fun c => c ≠ '/')).length
  let head := cs.take (cs.length - tailLen)
  if head.isEmpty || head.all (fun c => c = '/') then String.mk head
  else String.mk ((head.reverse.dropWhile (fun c => c = '/')).reverse)

/-- The tail of `process_output_files` once a path string is resolved: the
directory diagnostics block, then the final existence check that either
uploads the file and returns the success payload or returns the
file-does-not-exist error payload. -/
def finishFile (env : Env) (jobId : String) (p : String) : Except PyFault RDict × List Call :=
  let d := posixDirname p
  let tr1 := if env.fsExists d then [Call.fsExists d, Call.listdir d] else [Call.fsExists d]
  if env.fsExists p then
    let url := env.s3upload jobId p
    (.ok [("status", .s "success"), ("message", .s url)],
     tr1 ++ [Call.fsExists p, Call.getsize p, Call.s3Upload p])
  else
    (.ok [("status", .s "error"),
          ("message", .s ("the file does not exist in the specified output folder: " ++ p))],
     tr1 ++ [Call.fsExists p])

/-- Prefix a trace onto an instrumented result. -/
def withTrace (pre : List Call) (r : Except PyFault RDict × List Call) :
    Except PyFault RDict × List Call :=
  (r.1, pre ++ r.2)

/-- `process_output_files outputs job_id`.  The branch structure follows the
source literally: a truthy existing `full_path` wins; otherwise, when the
constructed path does not exist, `local_file_path` is overwritten with
`full_path` even when that is `None` — in which case the subsequent
`os.path.dirname(None)` raises a `TypeError`. -/
def process_output_files (env : Env) (outputs : Outputs) (jobId : String) :
    Except PyFault RDict × List Call :=
  match scanOutputs outputs with
  | none =>
    (.ok [("status", .s "error"),
          ("message", .s "No output file found in the generation results")], [])
  | some c =>
    let localPath := env.outputPath ++ "/" ++ c.file
    match c.full with
    | some fp =>
      if fp ≠ "" then
        if env.fsExists fp then
          withTrace [.fsExists fp] (finishFile env jobId fp)
        else if env.fsExists localPath then
          withTrace [.fsExists fp, .fsExists localPath] (finishFile env jobId localPath)
        else
          withTrace [.fsExists fp, .fsExists localPath] (finishFile env jobId fp)
      else
        if env.fsExists localPath then
          withTrace [.fsExists localPath] (finishFile env jobId localPath)
        else
          withTrace [.fsExists localPath] (finishFile env jobId "")
    | none =>
      if env.fsExists localPath then
        withTrace [.fsExists localPath] (finishFile env jobId localPath)
      else
        (.error .typeError, [.fsExists localPath])

/-- The dictionary `upload_images` returns, as the handler forwards it. -/
def outcomeDict (o : UOutcome) : RDict :=
  [("status", .s o.status), ("message", .s o.message), ("details", .l o.details)]

/-- Python truthiness of the `error_message` component
(`if error_message:`). -/
def optTruthy : Option String → Bool
  | none => false
  | some s => !(s == "")

/-- A job as delivered by the queue framework: `job["id"]`, `job["input"]`. -/
structure Job where
  id : String
  input : JVal

/-- The part of `handler` after the availability probe: upload, queueing,
polling and output resolution, with its own call trace. -/
def afterProbe (env : Env) (v : Validated) (job : Job) : Except PyFault RDict × List Call :=
  let up := upload_images env v.images
  match up.1 with
  | .error f => (.error f, up.2)
  | .ok outcome =>
    if outcome.status = "error" then (.ok (outcomeDict outcome), up.2)
    else
      match env.queuePost v.workflow with
      | .error m =>
        (.ok [("error", .s ("Error queuing workflow: " ++ m))], up.2 ++ [Call.queuePost])
      | .ok none =>
        (.ok [("error", .s "Error queuing workflow: 'prompt_id'")], up.2 ++ [Call.queuePost])
      | .ok (some pid) =>
        let pl := poll_loop env pid
        let tr2 := up.2 ++ [Call.queuePost] ++ pl.2
        match pl.1 with
        | .timeout =>
          (.ok [("error", .s "Max retries reached while waiting for image generation")], tr2)
        | .fault m =>
          (.ok [("error", .s ("Error waiting for image generation: " ++ m))], tr2)
        | .done h =>
          let outs := ((h.lookup pid).bind HRec.outputs).getD []
          let pr := process_output_files env outs job.id
          match pr.1 with
          | .error f => (.error f, tr2 ++ pr.2)
          | .ok payload =>
            (.ok (payload ++ [("refresh_worker", .b env.refreshWorker)]), tr2 ++ pr.2)

/-- `handler job`: validation, availability probe (result ignored), then
`afterProbe`.  A `None` validated value with a falsy error message would be
subscripted by the source (`validated_data["workflow"]`), a `TypeError`. -/
def handler (env : Env) (job : Job) : Except PyFault RDict × List Call :=
  match validate_input env job.input with
  | .error f => (.error f, [])
  | .ok (vOpt, eOpt) =>
    if optTruthy eOpt then (.ok [("error", .s (eOpt.getD ""))], [])
    else
      match vOpt with
      | none => (.error .typeError, [])
      | some v =>
        let ck := check_server env COMFY_API_AVAILABLE_MAX_RETRIES
        let rest := afterProbe env v job
        (rest.1, ck.2 ++ rest.2)

/-! ### Test fixtures: concrete oracle environments and jobs for the closed
theorems below.  `envT` answers the health probe at once, decodes every
base64 string except "bad", rejects the upload of "f.png" with a 500, queues
prompt id "pid1", reports the history ready from the third fetch on, and has
exactly the reported full path on disk. -/

/-- A ready history record for prompt id `pid1` with one image entry. -/
def histT : History :=
  [("pid1", ⟨some [("9", ⟨some [⟨"out.png", "sub", some "/full/out.png"⟩], none⟩)]⟩)]

/-- A concrete oracle environment used by the closed theorems. -/
def envT : Env := {
  jsonParse := fun s => if s = "[]" then some (.arr []) else if s = "5" then some (.num 5) else none
  healthGet := fun _ => .ok 200
  b64decode := fun s => if s = "bad" then none else some [1, 2]
  uploadPost := fun n _ => if n = "f.png" then (500, "boom") else (200, "ok")
  queuePost := fun _ => .ok (some "pid1")
  historyGet := fun k => if k < 2 then .ok [] else .ok histT
  fsExists := fun p => p = "/full/out.png"
  listdirAt := fun _ => []
  getsizeAt := fun _ => 7
  s3upload := fun j p => "s3://" ++ j ++ "/" ++ p
  outputPath := "/comfyui/output"
  pollMaxRetries := 5
  refreshWorker := false }

/-- C7: for empty or null images input, `upload_images` returns the success
outcome with a message indicating no images and empty details, and issues
zero HTTP requests (its call trace is empty). -/
theorem claim_C7_upload_images_noop (env : Env) :
    upload_images env JVal.null = (.ok ⟨"success", "No images to upload", []⟩, []) ∧
    upload_images env (JVal.arr []) = (.ok ⟨"success", "No images to upload", []⟩, []) := by
  constructor <;> rfl

/-- C10: the (value, error) tuple contract of `validate_input` holds only for
null, string or mapping inputs: on a list or number input, and on a string
input whose JSON parse yields a list or a number, `validate_input` raises an
`AttributeError` (the unconditional `.get` on the parsed value) instead of
returning an error tuple. -/
theorem claim_C10_validator_faults :
    validate_input envT (JVal.arr []) = .error .attributeError ∧
    validate_input envT (JVal.num 3) = .error .attributeError ∧
    validate_input envT (JVal.str "[]") = .error .attributeError ∧
    validate_input envT (JVal.str "5") = .error .attributeError := by
  refine ⟨rfl, rfl, rfl, rfl⟩

/-- C8 counterexample: the claim says validation fails by returning a null
value and an error string whenever a present images field is not a sequence
of elements each carrying both name and image; but for the in-scope input
`{"workflow": {}, "images": [5]}` the membership test `"name" in 5` raises a
`TypeError`, so `validate_input` raises instead of returning the tuple. -/
theorem claim_C8_cx :
    validate_input envT (JVal.obj [("workflow", JVal.obj []), ("images", JVal.arr [JVal.num 5])]) =
      .error .typeError := rfl

/-- C8 (amended): validation fails with an error tuple when the input is
null, when a string input fails JSON parsing, when the workflow field is
absent or null, when a present images field is not a list, and when it is a
list on which the per-element membership checks evaluate to false; when a
membership check raises (an element that is a number, boolean or null),
`validate_input` propagates the fault instead of returning a tuple.  In the
null-workflow case the handler immediately returns the missing-workflow
error dictionary with an empty call trace (zero HTTP calls). -/
theorem claim_C8_amended (env : Env) (s : String) (fields : List (String × JVal))
    (xs : List JVal) (v : JVal) (f : PyFault) (job : Job) :
    (validate_input env JVal.null = .ok (none, some "Please provide input")) ∧
    (env.jsonParse s = none →
      validate_input env (JVal.str s) = .ok (none, some "Invalid JSON format in input")) ∧
    (pyGet fields "workflow" = JVal.null →
      validate_input env (JVal.obj fields) = .ok (none, some "Missing 'workflow' parameter")) ∧
    (pyGet fields "workflow" ≠ JVal.null → pyGet fields "images" = v → v ≠ JVal.null →
      (∀ ys, v ≠ JVal.arr ys) →
      validate_input env (JVal.obj fields) =
        .ok (none, some "'images' must be a list of objects with 'name' and 'image' keys")) ∧
    (pyGet fields "workflow" ≠ JVal.null → pyGet fields "images" = JVal.arr xs →
      imagesWellFormed xs = .ok false →
      validate_input env (JVal.obj fields) =
        .ok (none, some "'images' must be a list of objects with 'name' and 'image' keys")) ∧
    (pyGet fields "workflow" ≠ JVal.null → pyGet fields "images" = JVal.arr xs →
      imagesWellFormed xs = .error f →
      validate_input env (JVal.obj fields) = .error f) ∧
    (job.input = JVal.obj fields → pyGet fields "workflow" = JVal.null →
      handler env job = (.ok [("error", RVal.s "Missing 'workflow' parameter")], [])) := by
  refine ⟨rfl, ?_, ?_, ?_, ?_, ?_, ?_⟩
  · intro h
    simp [validate_input, h]
  · intro h
    simp [validate_input, validateParsed, h]
  · intro hw hv hnn hna
    rcases h : pyGet fields "workflow" with _ | b | n | t | ys | fs <;>
      rw [h] at hw <;> try simp at hw
    all_goals
      rcases v with _ | b2 | n2 | t2 | ys2 | fs2 <;>
        first
        | exact absurd rfl hnn
        | exact absurd rfl (hna _)
        | simp [validate_input, validateParsed, h, hv]
  · intro hw hx hwf
    rcases h : pyGet fields "workflow" with _ | b | n | t | ys | fs <;>
      rw [h] at hw <;> try simp at hw
    all_goals simp [validate_input, validateParsed, h, hx, hwf]
  · intro hw hx hwf
    rcases h : pyGet fields "workflow" with _ | b | n | t | ys | fs <;>
      rw [h] at hw <;> try simp at hw
    all_goals simp [validate_input, validateParsed, h, hx, hwf]
  · intro hin hw
    simp [handler, hin, validate_input, validateParsed, hw, optTruthy]

/-- C8 witness: the amended claim applied at the concrete input
`{"workflow": null}` under the concrete environment `envT`. -/
theorem claim_C8_witness :
    handler envT ⟨"j", JVal.obj [("workflow", JVal.null)]⟩ =
      (.ok [("error", RVal.s "Missing 'workflow' parameter")], []) :=
  (claim_C8_amended envT "" [("workflow", JVal.null)] [] JVal.null PyFault.typeError
    ⟨"j", JVal.obj [("workflow", JVal.null)]⟩).2.2.2.2.2.2 rfl rfl

/-- A variant of `envT` on which no path exists on disk. -/
def envF : Env := { envT with fsExists := fun _ => false }

/-- C2 counterexample: the claim says that when the constructed path does not
exist the resolver uses the full path even when that is absent/None and then
returns the file-does-not-exist error payload; but on a candidate whose
backend-reported full path is absent and whose constructed path is not on
disk, `local_file_path` becomes `None` and the following
`os.path.dirname(None)` raises a `TypeError`: no payload is returned. -/
theorem claim_C2_cx :
    (process_output_files envF [("9", ⟨some [⟨"o.png", "s", none⟩], none⟩)] "j").1 =
      Except.error PyFault.typeError := rfl

/-- C2 (amended): if the backend-reported full path is a non-empty string
that exists on disk the resolver uses it; else if the constructed path
exists the resolver uses the constructed path; else the resolver falls back
to the full path, and when that is a (non-empty) string it returns the
file-does-not-exist error payload naming it, while when it is absent/None
the resolver raises a `TypeError` instead of returning a payload. -/
theorem claim_C2_amended (env : Env) (outs : Outputs) (jobId file fp : String) :
    (scanOutputs outs = some ⟨file, some fp⟩ → fp ≠ "" → env.fsExists fp = true →
      (process_output_files env outs jobId).1 =
        .ok [("status", RVal.s "success"), ("message", RVal.s (env.s3upload jobId fp))]) ∧
    (scanOutputs outs = some ⟨file, some fp⟩ → (fp = "" ∨ env.fsExists fp = false) →
      env.fsExists (env.outputPath ++ "/" ++ file) = true →
      (process_output_files env outs jobId).1 =
        .ok [("status", RVal.s "success"),
             ("message", RVal.s (env.s3upload jobId (env.outputPath ++ "/" ++ file)))]) ∧
    (scanOutputs outs = some ⟨file, none⟩ →
      env.fsExists (env.outputPath ++ "/" ++ file) = true →
      (process_output_files env outs jobId).1 =
        .ok [("status", RVal.s "success"),
             ("message", RVal.s (env.s3upload jobId (env.outputPath ++ "/" ++ file)))]) ∧
    (scanOutputs outs = some ⟨file, some fp⟩ → fp ≠ "" → env.fsExists fp = false →
      env.fsExists (env.outputPath ++ "/" ++ file) = false →
      (process_output_files env outs jobId).1 =
        .ok [("status", RVal.s "error"),
             ("message",
              RVal.s ("the file does not exist in the specified output folder: " ++ fp))]) ∧
    (scanOutputs outs = some ⟨file, none⟩ →
      env.fsExists (env.outputPath ++ "/" ++ file) = false →
      (process_output_files env outs jobId).1 = .error PyFault.typeError) := by
  refine ⟨?_, ?_, ?_, ?_, ?_⟩
  · intro hscan hne hex
    simp [process_output_files, hscan, hne, hex, finishFile, withTrace]
  · intro hscan hor hloc
    rcases hor with he | hex
    · subst he
      simp [process_output_files, hscan, hloc, finishFile, withTrace]
    · by_cases hne : fp = ""
      · subst hne
        simp [process_output_files, hscan, hloc, finishFile, withTrace]
      · simp [process_output_files, hscan, hne, hex, hloc, finishFile, withTrace]
  · intro hscan hloc
    simp [process_output_files, hscan, hloc, finishFile, withTrace]
  · intro hscan hne hex hloc
    simp [process_output_files, hscan, hne, hex, hloc, finishFile, withTrace]
  · intro hscan hloc
    simp [process_output_files, hscan, hloc, finishFile, withTrace]

/-- C2 witness: the amended claim applied at a concrete candidate whose full
path exists on disk under `envT`. -/
theorem claim_C2_witness :
    (process_output_files envT [("9", ⟨some [⟨"out.png", "sub", some "/full/out.png"⟩], none⟩)]
        "j").1 =
      .ok [("status", RVal.s "success"), ("message", RVal.s "s3://j//full/out.png")] :=
  (claim_C2_amended envT [("9", ⟨some [⟨"out.png", "sub", some "/full/out.png"⟩], none⟩)]
    "j" "sub/out.png" "/full/out.png").1 rfl (by decide) rfl

/-- The first component of an instrumented result is unchanged by
prefixing a trace. -/
theorem withTrace_fst (pre : List Call) (r : Except PyFault RDict × List Call) :
    (withTrace pre r).1 = r.1 := rfl

/-- Every payload of `finishFile` has exactly the keys `status` and
`message`, in that order. -/
theorem finishFile_ok_keys (env : Env) (j p : String) (d : RDict)
    (h : (finishFile env j p).1 = .ok d) : keysOf d = ["status", "message"] := by
  simp only [finishFile] at h
  by_cases he : env.fsExists p = true
  · rw [if_pos he] at h
    simp only [Except.ok.injEq] at h
    subst h
    rfl
  · rw [if_neg he] at h
    simp only [Except.ok.injEq] at h
    subst h
    rfl

/-- Every successful payload of `process_output_files` has exactly the keys
`status` and `message`, in that order. -/
theorem process_output_files_ok_keys (env : Env) (outs : Outputs) (j : String) (d : RDict)
    (h : (process_output_files env outs j).1 = .ok d) : keysOf d = ["status", "message"] := by
  simp only [process_output_files] at h
  split at h
  · simp only [Except.ok.injEq] at h
    subst h
    rfl
  · split at h
    · split at h
      · split at h
        · rw [withTrace_fst] at h
          exact finishFile_ok_keys env j _ d h
        · split at h
          · rw [withTrace_fst] at h
            exact finishFile_ok_keys env j _ d h
          · rw [withTrace_fst] at h
            exact finishFile_ok_keys env j _ d h
      · split at h
        · rw [withTrace_fst] at h
          exact finishFile_ok_keys env j _ d h
        · rw [withTrace_fst] at h
          exact finishFile_ok_keys env j _ d h
    · split at h
      · rw [withTrace_fst] at h
        exact finishFile_ok_keys env j _ d h
      · simp at h

/-- Every dictionary `afterProbe` returns has one of the three key shapes of
the handler results. -/
theorem afterProbe_ok_keys (env : Env) (v : Validated) (job : Job) (d : RDict)
    (h : (afterProbe env v job).1 = .ok d) :
    keysOf d = ["error"] ∨ keysOf d = ["status", "message", "refresh_worker"] ∨
      keysOf d = ["status", "message", "details"] := by
  simp only [afterProbe] at h
  split at h
  · simp at h
  · split at h
    · simp only [Except.ok.injEq] at h
      subst h
      right; right
      rfl
    · split at h
      · simp only [Except.ok.injEq] at h
        subst h
        left; rfl
      · simp only [Except.ok.injEq] at h
        subst h
        left; rfl
      · split at h
        · simp only [Except.ok.injEq] at h
          subst h
          left; rfl
        · simp only [Except.ok.injEq] at h
          subst h
          left; rfl
        · split at h
          · simp at h
          · next payload heq =>
            simp only [Except.ok.injEq] at h
            subst h
            right; left
            have hk := process_output_files_ok_keys env _ job.id payload heq
            simp only [keysOf, List.map_append] at hk ⊢
            rw [hk]
            rfl

/-- C5 counterexample: when the image-upload outcome has status error the
handler forwards the upload dictionary verbatim, whose key shape
`[status, message, details]` is neither `[error]` nor
`[status, message, refresh_worker]`, contradicting the claimed two shapes. -/
theorem claim_C5_cx :
    (handler envT ⟨"job1", JVal.obj [("workflow", JVal.obj []),
        ("images", JVal.arr [JVal.obj [("name", JVal.str "f.png"),
          ("image", JVal.str "aaaa")]])]⟩).1 =
      .ok [("status", RVal.s "error"), ("message", RVal.s "Some images failed to upload"),
           ("details", RVal.l ["Error uploading f.png: boom"])] ∧
    keysOf [("status", RVal.s "error"), ("message", RVal.s "Some images failed to upload"),
            ("details", RVal.l ["Error uploading f.png: boom"])] ≠ ["error"] ∧
    keysOf [("status", RVal.s "error"), ("message", RVal.s "Some images failed to upload"),
            ("details", RVal.l ["Error uploading f.png: boom"])] ≠
      ["status", "message", "refresh_worker"] := by
  refine ⟨rfl, by decide, by decide⟩

/-- C5 (amended): every dictionary the handler returns (when it returns one
rather than raising) has one of three key shapes: `[error]`,
`[status, message, refresh_worker]`, or — when the image-upload outcome has
status error — the forwarded upload outcome shape
`[status, message, details]`. -/
theorem claim_C5_amended (env : Env) (job : Job) (d : RDict)
    (h : (handler env job).1 = .ok d) :
    keysOf d = ["error"] ∨ keysOf d = ["status", "message", "refresh_worker"] ∨
      keysOf d = ["status", "message", "details"] := by
  simp only [handler] at h
  split at h
  · simp at h
  · split at h
    · simp only [Except.ok.injEq] at h
      subst h
      left; rfl
    · split at h
      · simp at h
      · rename_i v heq
        exact afterProbe_ok_keys env v job d h

/-- C5 witness: the amended claim applied to the concrete all-success run of
the handler under `envT`. -/
theorem claim_C5_witness :
    keysOf [("status", RVal.s "success"), ("message", RVal.s "s3://job1//full/out.png"),
            ("refresh_worker", RVal.b false)] = ["error"] ∨
    keysOf [("status", RVal.s "success"), ("message", RVal.s "s3://job1//full/out.png"),
            ("refresh_worker", RVal.b false)] = ["status", "message", "refresh_worker"] ∨
    keysOf [("status", RVal.s "success"), ("message", RVal.s "s3://job1//full/out.png"),
            ("refresh_worker", RVal.b false)] = ["status", "message", "details"] :=
  claim_C5_amended envT ⟨"job1", JVal.obj [("workflow", JVal.obj [])]⟩ _ rfl

/-- Folding an always-overwriting function over a list keeps the last
element's value, or the accumulator on an empty list. -/
theorem foldl_overwrite (g : OutEntry → Cand) :
    ∀ (l : List OutEntry) (acc : Option Cand),
      l.foldl (fun _ e => some (g e)) acc =
        (l.getLast?.map (fun e => some (g e))).getD acc
  | [], _ => rfl
  | [e], _ => rfl
  | e :: r :: rs, acc => by
    rw [List.foldl_cons, foldl_overwrite g (r :: rs) (some (g e)), List.getLast?_cons_cons]
    cases hl : (r :: rs).getLast? with
    | none => simp [List.getLast?_eq_none_iff] at hl
    | some x => simp

/-- Stacked last-entry selections over two lists collapse to one over their
concatenation. -/
theorem getD_getLast?_append (g : OutEntry → Cand) (l1 l2 : List OutEntry) (acc : Option Cand) :
    (l2.getLast?.map (fun e => some (g e))).getD
      ((l1.getLast?.map (fun e => some (g e))).getD acc) =
    (((l1 ++ l2).getLast?).map (fun e => some (g e))).getD acc := by
  cases hl : l2.getLast? with
  | none =>
    have h2 : l2 = [] := List.getLast?_eq_none_iff.mp hl
    subst h2
    simp
  | some x =>
    have hne : l2 ≠ [] := by
      rintro rfl
      simp at hl
    rw [List.getLast?_append_of_ne_nil l1 hne, hl]
    simp

/-- The scan of a single node keeps the last entry of its images followed by
its gifs, falling back to the accumulator. -/
theorem scanNode_eq (acc : Option Cand) (no : NodeOutput) :
    scanNode acc no =
      ((((no.images.getD []) ++ (no.gifs.getD [])).getLast?).map
        (fun e => some (entryCand e))).getD acc := by
  rcases no with ⟨oi, og⟩
  rcases oi with _ | li <;> rcases og with _ | lg
  · simp [scanNode]
  · simp [scanNode, foldl_overwrite entryCand]
  · simp [scanNode, foldl_overwrite entryCand]
  · simp only [scanNode, Option.getD_some]
    rw [foldl_overwrite entryCand, foldl_overwrite entryCand, getD_getLast?_append]

/-- The outputs scan, from any accumulator, keeps the last entry of the full
entry list. -/
theorem scan_foldl (outs : Outputs) :
    ∀ acc, outs.foldl (fun a p => scanNode a p.2) acc =
      (((entryList outs).getLast?).map (fun e => some (entryCand e))).getD acc := by
  induction outs with
  | nil => intro acc; simp [entryList]
  | cons p rest ih =>
    intro acc
    rw [List.foldl_cons, ih (scanNode acc p.2), scanNode_eq]
    rw [getD_getLast?_append]
    simp [entryList]

/-- C3: output resolution is last-write-wins: the scanned candidate equals
the last entry of the entry list (mapping-iteration order, images before
gifs within a node) mapped to its constructed-path/full-path pair; and when
there are no entries at all, `process_output_files` returns the no-output
error payload with an empty call trace, consulting neither the filesystem
nor the upload collaborator. -/
theorem claim_C3_last_write_wins (env : Env) (outs : Outputs) (jid : String) :
    scanOutputs outs = (entryList outs).getLast?.map entryCand ∧
    (entryList outs = [] →
      process_output_files env outs jid =
        (.ok [("status", RVal.s "error"),
              ("message", RVal.s "No output file found in the generation results")], [])) := by
  have hscan : scanOutputs outs = (entryList outs).getLast?.map entryCand := by
    show outs.foldl (fun a p => scanNode a p.2) none = _
    rw [scan_foldl outs none]
    cases h : (entryList outs).getLast? <;> simp
  refine ⟨hscan, ?_⟩
  intro h
  have hs : scanOutputs outs = none := by
    rw [hscan, h]
    rfl
  simp [process_output_files, hs]

/-- C3 witness: the claim applied at a concrete outputs mapping with three
entries spread over images and gifs of two nodes, and at the empty mapping. -/
theorem claim_C3_witness :
    scanOutputs [("1", ⟨some [⟨"a.png", "s1", none⟩], some [⟨"b.mp4", "s2", some "/fb"⟩]⟩),
                 ("2", ⟨some [⟨"c.png", "s3", none⟩], none⟩)] =
      some ⟨"s3/c.png", none⟩ ∧
    process_output_files envT [] "j" =
      (.ok [("status", RVal.s "error"),
            ("message", RVal.s "No output file found in the generation results")], []) :=
  ⟨((claim_C3_last_write_wins envT
      [("1", ⟨some [⟨"a.png", "s1", none⟩], some [⟨"b.mp4", "s2", some "/fb"⟩]⟩),
       ("2", ⟨some [⟨"c.png", "s3", none⟩], none⟩)] "j").1).trans rfl,
   (claim_C3_last_write_wins envT [] "j").2 rfl⟩

/-- Whether one iteration body of the upload loop runs without a fault on
this element. -/
def imgOk (env : Env) (x : JVal) : Bool :=
  match processImage env x with
  | .ok _ => true
  | .error _ => false

/-- Whether one iteration body reaches a non-200 upload response. -/
def imgFails (env : Env) (x : JVal) : Bool :=
  match processImage env x with
  | .ok (_, code, _) => !(code == 200)
  | .error _ => false

/-- The success strings the upload loop accumulates over a list. -/
def succMsgs (env : Env) (xs : List JVal) : List String :=
  xs.filterMap (fun x =>
    match processImage env x with
    | .ok (n, code, _) => if code = 200 then some ("Successfully uploaded " ++ n) else none
    | .error _ => none)

/-- The failure strings the upload loop accumulates over a list. -/
def failMsgs (env : Env) (xs : List JVal) : List String :=
  xs.filterMap (fun x =>
    match processImage env x with
    | .ok (n, code, text) =>
      if code = 200 then none else some ("Error uploading " ++ n ++ ": " ++ text)
    | .error _ => none)

theorem succMsgs_cons_hit (env : Env) (x : JVal) (rest : List JVal) (n : String) (text : String)
    (hpc : processImage env x = .ok (n, 200, text)) :
    succMsgs env (x :: rest) = ("Successfully uploaded " ++ n) :: succMsgs env rest := by
  simp [succMsgs, List.filterMap_cons, hpc]

theorem succMsgs_cons_miss (env : Env) (x : JVal) (rest : List JVal) (n : String) (code : Nat)
    (text : String) (hpc : processImage env x = .ok (n, code, text)) (hc : code ≠ 200) :
    succMsgs env (x :: rest) = succMsgs env rest := by
  simp [succMsgs, List.filterMap_cons, hpc, hc]

theorem failMsgs_cons_hit (env : Env) (x : JVal) (rest : List JVal) (n : String) (text : String)
    (hpc : processImage env x = .ok (n, 200, text)) :
    failMsgs env (x :: rest) = failMsgs env rest := by
  simp [failMsgs, List.filterMap_cons, hpc]

theorem failMsgs_cons_miss (env : Env) (x : JVal) (rest : List JVal) (n : String) (code : Nat)
    (text : String) (hpc : processImage env x = .ok (n, code, text)) (hc : code ≠ 200) :
    failMsgs env (x :: rest) =
      ("Error uploading " ++ n ++ ": " ++ text) :: failMsgs env rest := by
  simp [failMsgs, List.filterMap_cons, hpc, hc]

/-- The upload loop, on a fault-free list, returns the aggregate outcome:
status error with the accumulated failure strings when any upload failed,
status success with the accumulated success strings otherwise. -/
theorem uploadLoop_ok (env : Env) :
    ∀ (xs : List JVal), (∀ x ∈ xs, imgOk env x = true) →
      ∀ resp errs tr,
        (uploadLoop env xs resp errs tr).1 =
          .ok (if errs ++ failMsgs env xs = [] then
                 ⟨"success", "All images uploaded successfully", resp ++ succMsgs env xs⟩
               else ⟨"error", "Some images failed to upload", errs ++ failMsgs env xs⟩) := by
  intro xs
  induction xs with
  | nil =>
    intro _ resp errs tr
    by_cases he : errs = []
    · subst he
      simp [uploadLoop, succMsgs, failMsgs]
    · simp [uploadLoop, succMsgs, failMsgs, he]
  | cons x rest ih =>
    intro hok resp errs tr
    have hx : imgOk env x = true := hok x (List.mem_cons_self x rest)
    obtain ⟨⟨n, code, text⟩, hpc⟩ : ∃ y, processImage env x = .ok y := by
      cases hp : processImage env x with
      | ok y => exact ⟨y, rfl⟩
      | error f => simp [imgOk, hp] at hx
    have hrest : ∀ x ∈ rest, imgOk env x = true :=
      fun y hy => hok y (List.mem_cons_of_mem x hy)
    simp only [uploadLoop, hpc]
    by_cases hc : code = 200
    · subst hc
      rw [if_pos rfl, ih hrest, succMsgs_cons_hit env x rest n text hpc,
        failMsgs_cons_hit env x rest n text hpc]
      simp [List.append_assoc]
    · rw [if_neg hc, ih hrest, succMsgs_cons_miss env x rest n code text hpc hc,
        failMsgs_cons_miss env x rest n code text hpc hc]
      simp [List.append_assoc]

/-- On a fault-free, all-200 list the loop accumulates one success string per
element. -/
theorem succMsgs_length (env : Env) :
    ∀ xs : List JVal, (∀ x ∈ xs, imgOk env x = true) → (∀ x ∈ xs, imgFails env x = false) →
      (succMsgs env xs).length = xs.length := by
  intro xs
  induction xs with
  | nil => intro _ _; rfl
  | cons x rest ih =>
    intro hok hnf
    have hx : imgOk env x = true := hok x (List.mem_cons_self x rest)
    obtain ⟨⟨n, code, text⟩, hpc⟩ : ∃ y, processImage env x = .ok y := by
      cases hp : processImage env x with
      | ok y => exact ⟨y, rfl⟩
      | error f => simp [imgOk, hp] at hx
    have hf : imgFails env x = false := hnf x (List.mem_cons_self x rest)
    have hc : code = 200 := by
      by_contra hne
      simp [imgFails, hpc, hne] at hf
    subst hc
    rw [succMsgs_cons_hit env x rest n text hpc, List.length_cons, List.length_cons,
      ih (fun y hy => hok y (List.mem_cons_of_mem x hy))
        (fun y hy => hnf y (List.mem_cons_of_mem x hy))]

/-- The loop accumulates exactly one failure string per failing element. -/
theorem failMsgs_length (env : Env) :
    ∀ xs : List JVal,
      (failMsgs env xs).length = (xs.filter (fun x => imgFails env x)).length := by
  intro xs
  induction xs with
  | nil => rfl
  | cons x rest ih =>
    cases hpc : processImage env x with
    | error f =>
      have h1 : failMsgs env (x :: rest) = failMsgs env rest := by
        simp [failMsgs, List.filterMap_cons, hpc]
      have h2 : imgFails env x = false := by simp [imgFails, hpc]
      rw [h1, List.filter_cons_of_neg (by simp [h2]), ih]
    | ok y =>
      obtain ⟨n, code, text⟩ := y
      by_cases hc : code = 200
      · subst hc
        have h2 : imgFails env x = false := by simp [imgFails, hpc]
        rw [failMsgs_cons_hit env x rest n text hpc,
          List.filter_cons_of_neg (by simp [h2]), ih]
      · have h2 : imgFails env x = true := by simp [imgFails, hpc, hc]
        rw [failMsgs_cons_miss env x rest n code text hpc hc,
          List.filter_cons_of_pos (by simp [h2]), List.length_cons, List.length_cons, ih]

/-- When no element fails, the loop accumulates no failure strings. -/
theorem failMsgs_eq_nil (env : Env) :
    ∀ xs : List JVal, (∀ x ∈ xs, imgFails env x = false) → failMsgs env xs = [] := by
  intro xs
  induction xs with
  | nil => intro _; rfl
  | cons x rest ih =>
    intro hnf
    have hrest := ih (fun y hy => hnf y (List.mem_cons_of_mem x hy))
    cases hpc : processImage env x with
    | error f =>
      rw [show failMsgs env (x :: rest) = failMsgs env rest by
        simp [failMsgs, List.filterMap_cons, hpc], hrest]
    | ok y =>
      obtain ⟨n, code, text⟩ := y
      by_cases hc : code = 200
      · subst hc
        rw [failMsgs_cons_hit env x rest n text hpc, hrest]
      · have := hnf x (List.mem_cons_self x rest)
        simp [imgFails, hpc, hc] at this

/-- C6: for every images list on which every iteration body runs without a
fault, `upload_images` returns status success with one detail string per
image when every upload returns HTTP 200, and returns status error with one
detail string per failed upload when any single upload returns a non-200
status. -/
theorem claim_C6_upload_aggregate (env : Env) (xs : List JVal)
    (hok : ∀ x ∈ xs, imgOk env x = true) :
    ((∀ x ∈ xs, imgFails env x = false) →
      ∃ o, (upload_images env (JVal.arr xs)).1 = .ok o ∧ o.status = "success" ∧
        o.details.length = xs.length) ∧
    ((∃ x ∈ xs, imgFails env x = true) →
      ∃ o, (upload_images env (JVal.arr xs)).1 = .ok o ∧ o.status = "error" ∧
        o.details.length = (xs.filter (fun x => imgFails env x)).length) := by
  constructor
  · intro hnf
    cases xs with
    | nil => exact ⟨⟨"success", "No images to upload", []⟩, rfl, rfl, rfl⟩
    | cons x rest =>
      have hup : (upload_images env (JVal.arr (x :: rest))).1 =
          (uploadLoop env (x :: rest) [] [] []).1 := by
        simp [upload_images, pyFalsy]
      rw [hup, uploadLoop_ok env (x :: rest) hok]
      rw [failMsgs_eq_nil env (x :: rest) hnf]
      refine ⟨_, rfl, rfl, ?_⟩
      simp [succMsgs_length env (x :: rest) hok hnf]
  · intro hex
    obtain ⟨x0, hx0, hf0⟩ := hex
    cases xs with
    | nil => cases hx0
    | cons x rest =>
      have hup : (upload_images env (JVal.arr (x :: rest))).1 =
          (uploadLoop env (x :: rest) [] [] []).1 := by
        simp [upload_images, pyFalsy]
      rw [hup, uploadLoop_ok env (x :: rest) hok]
      have hne : ¬([] ++ failMsgs env (x :: rest) = []) := by
        simp only [List.nil_append]
        intro hem
        have hlen := failMsgs_length env (x :: rest)
        rw [hem] at hlen
        have hmem : x0 ∈ (x :: rest).filter (fun y => imgFails env y) :=
          List.mem_filter.mpr ⟨hx0, by simp [hf0]⟩
        have hpos := List.length_pos.mpr (List.ne_nil_of_mem hmem)
        simp at hlen
        omega
      rw [if_neg hne]
      refine ⟨_, rfl, rfl, ?_⟩
      simp [failMsgs_length env (x :: rest)]

/-- C6 witness: the claim applied under `envT` to a two-image list whose
second upload returns a 500. -/
theorem claim_C6_witness :
    ∃ o, (upload_images envT (JVal.arr
        [JVal.obj [("name", JVal.str "g.png"), ("image", JVal.str "aaaa")],
         JVal.obj [("name", JVal.str "f.png"), ("image", JVal.str "aaaa")]])).1 = .ok o ∧
      o.status = "error" ∧
      o.details.length =
        (([JVal.obj [("name", JVal.str "g.png"), ("image", JVal.str "aaaa")],
           JVal.obj [("name", JVal.str "f.png"), ("image", JVal.str "aaaa")]]).filter
          (fun x => imgFails envT x)).length :=
  (claim_C6_upload_aggregate envT
    [JVal.obj [("name", JVal.str "g.png"), ("image", JVal.str "aaaa")],
     JVal.obj [("name", JVal.str "f.png"), ("image", JVal.str "aaaa")]]
    (by decide)).2 (by decide)

/-- The upload loop never reads the health oracle. -/
theorem uploadLoop_hg (env : Env) (g : Nat → Except Unit Nat) :
    ∀ (xs : List JVal) (resp errs : List String) (tr : List Call),
      uploadLoop { env with healthGet := g } xs resp errs tr =
        uploadLoop env xs resp errs tr := by
  intro xs
  induction xs with
  | nil => intro resp errs tr; rfl
  | cons x rest ih =>
    intro resp errs tr
    simp only [uploadLoop,
      show processImage { env with healthGet := g } x = processImage env x from rfl]
    cases processImage env x with
    | error f => rfl
    | ok y =>
      obtain ⟨n, code, text⟩ := y
      by_cases hc : code = 200 <;> simp only [if_pos, if_neg, hc, ih]

/-- `upload_images` never reads the health oracle. -/
theorem upload_images_hg (env : Env) (g : Nat → Except Unit Nat) (imgs : JVal) :
    upload_images { env with healthGet := g } imgs = upload_images env imgs := by
  cases imgs with
  | arr xs =>
    by_cases he : pyFalsy (JVal.arr xs) = true
    · simp [upload_images, he]
    · simp only [upload_images, Bool.not_eq_true] at he ⊢
      rw [he]
      simp only [Bool.false_eq_true, if_false]
      exact uploadLoop_hg env g xs [] [] []
  | null => rfl
  | bool b => cases b <;> rfl
  | num n => by_cases hn : n = 0 <;> simp [upload_images, pyFalsy, hn]
  | str s => by_cases hs : s = "" <;> simp [upload_images, pyFalsy, hs]
  | obj fs => cases fs <;> rfl

/-- The polling loop never reads the health oracle. -/
theorem pollAux_hg (env : Env) (g : Nat → Except Unit Nat) (pid : String) :
    ∀ (n k : Nat),
      pollAux { env with healthGet := g } pid n k = pollAux env pid n k := by
  intro n
  induction n with
  | zero => intro k; rfl
  | succ m ih =>
    intro k
    simp only [pollAux]
    cases env.historyGet k with
    | error e => rfl
    | ok h =>
      by_cases hr : histReady h pid = true <;> simp [hr, ih]

/-- `poll_loop` never reads the health oracle. -/
theorem poll_loop_hg (env : Env) (g : Nat → Except Unit Nat) (pid : String) :
    poll_loop { env with healthGet := g } pid = poll_loop env pid :=
  pollAux_hg env g pid env.pollMaxRetries 0

/-- Everything after the availability probe is independent of the health
oracle. -/
theorem afterProbe_hg (env : Env) (g : Nat → Except Unit Nat) (v : Validated) (job : Job) :
    afterProbe { env with healthGet := g } v job = afterProbe env v job := by
  simp only [afterProbe, upload_images_hg env g, poll_loop_hg env g,
    show (process_output_files { env with healthGet := g } : Outputs → String →
      Except PyFault RDict × List Call) = process_output_files env from rfl]

/-- When every attempt in the window yields no 200 (a non-200 status or a
transport exception), the probe loop returns false after issuing one GET per
attempt. -/
theorem checkAux_all_down (env : Env) :
    ∀ (n k : Nat), (∀ j, k ≤ j → j < k + n → ∀ c, env.healthGet j = .ok c → c ≠ 200) →
      (checkAux env n k).1 = false ∧ (checkAux env n k).2.length = n := by
  intro n
  induction n with
  | zero => intro k _; exact ⟨rfl, rfl⟩
  | succ m ih =>
    intro k hnu
    have hrec := ih (k + 1) (fun j hj1 hj2 c hc => hnu j (by omega) (by omega) c hc)
    cases hg : env.healthGet k with
    | ok code =>
      have hne : code ≠ 200 := hnu k le_rfl (by omega) code hg
      simp only [checkAux, hg, if_neg hne]
      exact ⟨hrec.1, by simp [hrec.2]⟩
    | error e =>
      simp only [checkAux, hg]
      exact ⟨hrec.1, by simp [hrec.2]⟩

/-- When attempt `i` is the first to yield a 200 inside the window, the
probe loop returns true immediately after `i + 1` GETs. -/
theorem checkAux_found (env : Env) (i : Nat) (hgi : env.healthGet i = .ok 200) :
    ∀ (n k : Nat), k ≤ i → i < k + n →
      (∀ j, k ≤ j → j < i → ∀ c, env.healthGet j = .ok c → c ≠ 200) →
      (checkAux env n k).1 = true ∧ (checkAux env n k).2.length = i + 1 - k := by
  intro n
  induction n with
  | zero => intro k h1 h2 _; omega
  | succ m ih =>
    intro k hki hik hnu
    by_cases hk : k = i
    · subst hk
      simp only [checkAux, hgi, if_pos rfl]
      refine ⟨rfl, ?_⟩
      simp
    · have hki2 : k < i := lt_of_le_of_ne hki hk
      have hrec := ih (k + 1) (by omega) (by omega)
        (fun j h1 h2 c hc => hnu j (by omega) h2 c hc)
      cases hg : env.healthGet k with
      | ok code =>
        have hne : code ≠ 200 := hnu k le_rfl hki2 code hg
        simp only [checkAux, hg, if_neg hne]
        refine ⟨hrec.1, ?_⟩
        rw [List.length_cons, hrec.2]
        omega
      | error e =>
        simp only [checkAux, hg]
        refine ⟨hrec.1, ?_⟩
        rw [List.length_cons, hrec.2]
        omega

/-- C9: the availability probe returns true immediately upon the first
attempt whose GET yields HTTP 200 (issuing exactly that many GETs), treats
every transport exception and non-200 response as a non-fatal signal and
continues, returns false after exhausting all attempts, and the handler
ignores the probe result entirely: its returned value does not depend on the
health oracle. -/
theorem claim_C9_probe (env : Env) (g : Nat → Except Unit Nat) (job : Job)
    (i retries : Nat) :
    (env.healthGet i = .ok 200 →
      (∀ j, j < i → ∀ c, env.healthGet j = .ok c → c ≠ 200) → i < retries →
      (check_server env retries).1 = true ∧ (check_server env retries).2.length = i + 1) ∧
    ((∀ j, j < retries → ∀ c, env.healthGet j = .ok c → c ≠ 200) →
      (check_server env retries).1 = false ∧
        (check_server env retries).2.length = retries) ∧
    (handler { env with healthGet := g } job).1 = (handler env job).1 := by
  refine ⟨?_, ?_, ?_⟩
  · intro hgi hlt hir
    have h := checkAux_found env i hgi retries 0 (by omega) (by omega)
      (fun j _ h2 c hc => hlt j h2 c hc)
    refine ⟨h.1, ?_⟩
    rw [show check_server env retries = checkAux env retries 0 from rfl, h.2]
    omega
  · intro hall
    exact checkAux_all_down env retries 0 (fun j _ h2 c hc => hall j (by omega) c hc)
  · have hval : validate_input { env with healthGet := g } job.input =
        validate_input env job.input := rfl
    simp only [handler, hval]
    cases validate_input env job.input with
    | error f => rfl
    | ok pr =>
      obtain ⟨vOpt, eOpt⟩ := pr
      by_cases he : optTruthy eOpt = true
      · simp [he]
      · simp only [Bool.not_eq_true] at he
        simp only [he, Bool.false_eq_true, if_false]
        cases vOpt with
        | none => rfl
        | some v =>
          simp only [afterProbe_hg env g v job]

/-- C9 witness: the claim applied under `envT` (whose first GET yields 200)
with three retries, showing one GET and an immediate true. -/
theorem claim_C9_witness :
    (check_server envT 3).1 = true ∧ (check_server envT 3).2.length = 0 + 1 :=
  (claim_C9_probe envT (fun _ => .error ()) ⟨"j", JVal.null⟩ 0 3).1 rfl
    (fun j hj => by omega) (by omega)

/-- When every fetch reports not ready, the polling loop times out after
exactly one history fetch per remaining retry. -/
theorem pollAux_all_notReady (env : Env) (pid : String)
    (hall : ∀ m, ∃ h, env.historyGet m = .ok h ∧ histReady h pid = false) :
    ∀ (n k : Nat),
      (pollAux env pid n k).1 = .timeout ∧ (pollAux env pid n k).2.length = n := by
  intro n
  induction n with
  | zero => intro k; exact ⟨rfl, rfl⟩
  | succ m ih =>
    intro k
    obtain ⟨h, he, hr⟩ := hall k
    simp only [pollAux, he, hr, Bool.false_eq_true, if_false]
    exact ⟨(ih (k + 1)).1, by simp [(ih (k + 1)).2]⟩

/-- When fetch `i` is the first ready one inside the window, the polling
loop stops there with the fetched record, after `i + 1` fetches. -/
theorem pollAux_done_at (env : Env) (pid : String) (i : Nat) (hrec : History)
    (hgi : env.historyGet i = .ok hrec) (hready : histReady hrec pid = true) :
    ∀ (n k : Nat), k ≤ i → i < k + n →
      (∀ j, k ≤ j → j < i → ∃ h, env.historyGet j = .ok h ∧ histReady h pid = false) →
      (pollAux env pid n k).1 = .done hrec ∧ (pollAux env pid n k).2.length = i + 1 - k := by
  intro n
  induction n with
  | zero => intro k h1 h2 _; omega
  | succ m ih =>
    intro k hki hik hnr
    by_cases hk : k = i
    · subst hk
      simp only [pollAux, hgi, hready, if_true]
      refine ⟨trivial, ?_⟩
      simp only [List.length_cons, List.length_nil]
      omega
    · have hki2 : k < i := lt_of_le_of_ne hki hk
      obtain ⟨h, he, hr⟩ := hnr k le_rfl hki2
      simp only [pollAux, he, hr, Bool.false_eq_true, if_false]
      have hrec2 := ih (k + 1) (by omega) (by omega) (fun j h1 h2 => hnr j (by omega) h2)
      refine ⟨hrec2.1, ?_⟩
      rw [List.length_cons, hrec2.2]
      omega

/-- C1: if every history fetch reports not ready (identifier absent or
outputs empty), the completion poller performs exactly `pollMaxRetries`
fetches and times out, never fewer and never more; it exits successfully as
soon as one fetch is ready (at the first ready fetch `i`, after exactly
`i + 1` fetches); and in the all-not-ready situation the handler returns the
timeout error dictionary
`{"error": "Max retries reached while waiting for image generation"}`. -/
theorem claim_C1_polling (env : Env) (pid : String) (job : Job) (v : Validated)
    (i : Nat) (hrec : History) :
    ((∀ m, ∃ h, env.historyGet m = .ok h ∧ histReady h pid = false) →
      (poll_loop env pid).1 = .timeout ∧
        (poll_loop env pid).2.length = env.pollMaxRetries) ∧
    (env.historyGet i = .ok hrec → histReady hrec pid = true → i < env.pollMaxRetries →
      (∀ j, j < i → ∃ h, env.historyGet j = .ok h ∧ histReady h pid = false) →
      (poll_loop env pid).1 = .done hrec ∧ (poll_loop env pid).2.length = i + 1) ∧
    (validate_input env job.input = .ok (some v, none) → v.images = JVal.null →
      env.queuePost v.workflow = .ok (some pid) →
      (∀ m, ∃ h, env.historyGet m = .ok h ∧ histReady h pid = false) →
      (handler env job).1 =
        .ok [("error", RVal.s "Max retries reached while waiting for image generation")]) := by
  refine ⟨?_, ?_, ?_⟩
  · intro hall
    exact pollAux_all_notReady env pid hall env.pollMaxRetries 0
  · intro hgi hready hir hnr
    have h := pollAux_done_at env pid i hrec hgi hready env.pollMaxRetries 0
      (by omega) (by omega) (fun j _ h2 => hnr j h2)
    refine ⟨h.1, ?_⟩
    rw [show poll_loop env pid = pollAux env pid env.pollMaxRetries 0 from rfl, h.2]
    omega
  · intro hval himg hq hall
    have hup : upload_images env v.images = (.ok ⟨"success", "No images to upload", []⟩, []) := by
      rw [himg]
      rfl
    have hp1 : (poll_loop env pid).1 = PollRes.timeout :=
      (pollAux_all_notReady env pid hall env.pollMaxRetries 0).1
    simp only [handler, hval, optTruthy]
    simp only [afterProbe, hup, hq, hp1]
    simp

/-- C1 witness: under an environment whose history oracle always answers
with an empty record and a retry budget of 2, the poller times out after
exactly 2 fetches. -/
theorem claim_C1_witness :
    (poll_loop { envT with historyGet := fun _ => .ok [], pollMaxRetries := 2 } "p").1 =
      PollRes.timeout ∧
    (poll_loop { envT with historyGet := fun _ => .ok [], pollMaxRetries := 2 } "p").2.length =
      2 :=
  (claim_C1_polling { envT with historyGet := fun _ => .ok [], pollMaxRetries := 2 } "p"
    ⟨"j", JVal.null⟩ ⟨JVal.null, JVal.null⟩ 0 []).1 (fun _ => ⟨[], rfl, rfl⟩)

/-- C4 counterexample: the claim says every error kind, including a base64
decode failure during image upload, surfaces in a returned dictionary and no
error escapes the handler as an uncaught fault; but on a job whose image
payload fails to decode, `base64.b64decode` raises a `binascii.Error` that
no enclosing handler code catches: the handler raises instead of returning
a dictionary. -/
theorem claim_C4_cx :
    (handler envT ⟨"j", JVal.obj [("workflow", JVal.obj []),
        ("images", JVal.arr [JVal.obj [("name", JVal.str "g.png"),
          ("image", JVal.str "bad")]])]⟩).1 = Except.error PyFault.binasciiError := rfl

/-- C4 (amended): validation failures, upload HTTP failures, workflow
submission faults, polling transport faults, polling timeout and the
no-output resolution error all surface to the job result as descriptive
strings in a returned dictionary; a base64 decode failure during image
upload, however, escapes the handler as an uncaught fault instead of
surfacing in the result. -/
theorem claim_C4_error_propagation (env : Env) (job : Job) (v : Validated) (m : String)
    (pid : String) (xs : List JVal) (img nv : JVal) (s : String) (hrec : History) :
    (validate_input env job.input = .ok (none, some m) → m ≠ "" →
      (handler env job).1 = .ok [("error", RVal.s m)]) ∧
    (validate_input env job.input = .ok (some v, none) → v.images = JVal.arr xs → xs ≠ [] →
      ∀ o, (uploadLoop env xs [] [] []).1 = .ok o → o.status = "error" →
      (handler env job).1 = .ok (outcomeDict o)) ∧
    (validate_input env job.input = .ok (some v, none) → v.images = JVal.null →
      env.queuePost v.workflow = .error m →
      (handler env job).1 = .ok [("error", RVal.s ("Error queuing workflow: " ++ m))]) ∧
    (validate_input env job.input = .ok (some v, none) → v.images = JVal.null →
      env.queuePost v.workflow = .ok (some pid) → env.historyGet 0 = .error m →
      0 < env.pollMaxRetries →
      (handler env job).1 =
        .ok [("error", RVal.s ("Error waiting for image generation: " ++ m))]) ∧
    (validate_input env job.input = .ok (some v, none) → v.images = JVal.null →
      env.queuePost v.workflow = .ok (some pid) →
      (∀ k, ∃ h, env.historyGet k = .ok h ∧ histReady h pid = false) →
      (handler env job).1 =
        .ok [("error", RVal.s "Max retries reached while waiting for image generation")]) ∧
    (validate_input env job.input = .ok (some v, none) → v.images = JVal.null →
      env.queuePost v.workflow = .ok (some pid) → env.historyGet 0 = .ok hrec →
      histReady hrec pid = true → 0 < env.pollMaxRetries →
      scanOutputs (((hrec.lookup pid).bind HRec.outputs).getD []) = none →
      (handler env job).1 = .ok [("status", RVal.s "error"),
        ("message", RVal.s "No output file found in the generation results"),
        ("refresh_worker", RVal.b env.refreshWorker)]) ∧
    (validate_input env job.input = .ok (some v, none) → v.images = JVal.arr (img :: xs) →
      pyIndexStr img "name" = .ok nv → pyIndexStr img "image" = .ok (JVal.str s) →
      env.b64decode s = none →
      (handler env job).1 = Except.error PyFault.binasciiError) := by
  refine ⟨?_, ?_, ?_, ?_, ?_, ?_, ?_⟩
  · intro hval hm
    have ht : optTruthy (some m) = true := by simp [optTruthy, hm]
    simp only [handler, hval, ht, if_true]
    simp
  · intro hval himg hxs o hloop ho
    have hup : (upload_images env v.images).1 = .ok o := by
      rw [himg]
      cases xs with
      | nil => exact absurd rfl hxs
      | cons a rest => simpa [upload_images, pyFalsy] using hloop
    simp only [handler, hval, optTruthy]
    simp only [afterProbe, hup, ho, if_pos]
    simp
  · intro hval himg hq
    have hup : (upload_images env v.images).1 =
        .ok ⟨"success", "No images to upload", []⟩ := by
      rw [himg]
      rfl
    simp only [handler, hval, optTruthy]
    simp only [afterProbe, hup, hq]
    simp
  · intro hval himg hq hg0 hpos
    have hup : (upload_images env v.images).1 =
        .ok ⟨"success", "No images to upload", []⟩ := by
      rw [himg]
      rfl
    have hp1 : (poll_loop env pid).1 = PollRes.fault m := by
      rw [show poll_loop env pid = pollAux env pid env.pollMaxRetries 0 from rfl]
      cases hn : env.pollMaxRetries with
      | zero => omega
      | succ n2 => simp [pollAux, hg0]
    simp only [handler, hval, optTruthy]
    simp only [afterProbe, hup, hq, hp1]
    simp
  · intro hval himg hq hall
    have hup : (upload_images env v.images).1 =
        .ok ⟨"success", "No images to upload", []⟩ := by
      rw [himg]
      rfl
    have hp1 : (poll_loop env pid).1 = PollRes.timeout :=
      (pollAux_all_notReady env pid hall env.pollMaxRetries 0).1
    simp only [handler, hval, optTruthy]
    simp only [afterProbe, hup, hq, hp1]
    simp
  · intro hval himg hq hg0 hready hpos hscan
    have hup : (upload_images env v.images).1 =
        .ok ⟨"success", "No images to upload", []⟩ := by
      rw [himg]
      rfl
    have hp1 : (poll_loop env pid).1 = PollRes.done hrec := by
      refine (pollAux_done_at env pid 0 hrec hg0 hready env.pollMaxRetries 0
        (by omega) (by omega) ?_).1
      intro j h1 h2
      omega
    have hpr : (process_output_files env (((hrec.lookup pid).bind HRec.outputs).getD [])
        job.id).1 =
        .ok [("status", RVal.s "error"),
             ("message", RVal.s "No output file found in the generation results")] := by
      simp [process_output_files, hscan]
    simp only [handler, hval, optTruthy]
    simp only [afterProbe, hup, hq, hp1, hpr]
    simp
  · intro hval himg hn hd hb
    have hpi : processImage env img = .error .binasciiError := by
      simp [processImage, hn, hd, hb]
    have hup : (upload_images env v.images).1 = .error .binasciiError := by
      rw [himg]
      simp [upload_images, pyFalsy, uploadLoop, hpi]
    simp only [handler, hval, optTruthy]
    simp only [afterProbe, hup]
    simp

/-- C4 witness: the amended claim applied at a concrete job whose single
image payload fails base64 decoding under `envT`. -/
theorem claim_C4_witness :
    (handler envT ⟨"j2", JVal.obj [("workflow", JVal.obj []),
        ("images", JVal.arr [JVal.obj [("name", JVal.str "h.png"),
          ("image", JVal.str "bad")]])]⟩).1 = Except.error PyFault.binasciiError :=
  (claim_C4_error_propagation envT
    ⟨"j2", JVal.obj [("workflow", JVal.obj []),
      ("images", JVal.arr [JVal.obj [("name", JVal.str "h.png"),
        ("image", JVal.str "bad")]])]⟩
    ⟨JVal.obj [], JVal.arr [JVal.obj [("name", JVal.str "h.png"),
      ("image", JVal.str "bad")]]⟩
    "" "pid" [] (JVal.obj [("name", JVal.str "h.png"), ("image", JVal.str "bad")])
    (JVal.str "h.png") "bad" []).2.2.2.2.2.2 rfl rfl rfl rfl rfl
